import Mathlib

/-!
Verification development for the `claude-agent-sdk-message-format` repository:
a shallow embedding of its message formatters (src/index.ts, src/utils.ts,
src/formatters/stream.ts, the hook formatters and the validation module)
together with theorems about the formatting contract.

Modelling conventions:
* JavaScript strings are modelled as `List Char` (`Str`); `.length`, `.slice`
  and `for ... of` then work per character.
* picocolors functions are the identity: the reference behaviour is observed
  with color support disabled (non-TTY), exactly as the repository's tests
  configure the environment.
* The terminal width is passed explicitly to the box helpers (the source
  reads `process.stdout.columns || 80`).
* JavaScript values reaching the dynamic helpers are modelled by `JVal`
  (numbers as integers; `String(n)` renders the integer).
-/

set_option maxRecDepth 100000

/-- JavaScript strings, modelled as lists of characters. -/
abbrev Str := List Char

/-- Shorthand for turning a Lean string literal into a `Str`. -/
def str (s : String) : Str := s.data

/-- `Array.prototype.join(sep)` / `missingFields.join(', ')` etc. -/
def joinSep (sep : Str) : List Str → Str
  | [] => []
  | [a] => a
  | a :: b :: t => a ++ sep ++ joinSep sep (b :: t)

/-- `string.split('\n')`: split a string at newline characters. -/
def splitOnNl : Str → List Str
  | [] => [[]]
  | c :: rest =>
    match splitOnNl rest with
    | [] => [[]]
    | h :: t => if c = '\n' then [] :: h :: t else (c :: h) :: t

/-- `s.split('\n').map((l) => pre + l).join('\n')`, the indentation idiom
used throughout the hook formatters. -/
def indentBy (pre : Str) (s : Str) : Str :=
  joinSep (str "\n") ((splitOnNl s).map (fun l => pre ++ l))

/-- Whitespace characters trimmed by `String.prototype.trim` (the common
ASCII ones; exotic Unicode whitespace is not modelled). -/
def isWs (c : Char) : Bool := c = ' ' || c = '\n' || c = '\t' || c = '\r'

/-- `string.trim()`. -/
def trimStr (s : Str) : Str :=
  ((s.dropWhile isWs).reverse.dropWhile isWs).reverse

/-- Decimal digits of a natural number. -/
def natToStr (n : Nat) : Str := Nat.toDigits 10 n

/-- `String(n)` for an integer-valued JavaScript number. -/
def intToStr (n : Int) : Str :=
  if n < 0 then '-' :: natToStr n.natAbs else natToStr n.natAbs

/-- Helper for `toLocaleString`: insert `','` after every third character of
a reversed digit list. -/
def commaRev : List Char → List Char
  | a :: b :: c :: d :: rest => a :: b :: c :: ',' :: commaRev (d :: rest)
  | l => l

/-- `n.toLocaleString()` with the en-US comma grouping observed in tests. -/
def toLocale (n : Nat) : Str := (commaRev (natToStr n).reverse).reverse

/-- Exactly two decimal digits (the fractional part emitted by `toFixed(2)`). -/
def twoDigits (n : Nat) : Str := [Nat.digitChar (n / 10 % 10), Nat.digitChar (n % 10)]

/-- Exactly four decimal digits (the fractional part emitted by `toFixed(4)`). -/
def fourDigits (n : Nat) : Str :=
  [Nat.digitChar (n / 1000 % 10), Nat.digitChar (n / 100 % 10),
   Nat.digitChar (n / 10 % 10), Nat.digitChar (n % 10)]

/-- `(ms / 1000).toFixed(2)` for a millisecond count `ms`: exact-arithmetic
model of `toFixed` (round to nearest at the second decimal, ties up); the
double-precision representation error of `ms / 1000` is not modelled. -/
def msToFixed2 (ms : Nat) : Str :=
  let cs := (ms + 5) / 10
  natToStr (cs / 100) ++ '.' :: twoDigits (cs % 100)

/-- `cost.toFixed(4)` with the cost held in units of 10^-4 USD (exact on
these values). -/
def costToFixed4 (c : Nat) : Str :=
  natToStr (c / 10000) ++ '.' :: fourDigits (c % 10000)

/-- JavaScript values as seen by the dynamic helpers (`formatToolParamValue`,
`JSON.stringify`, hook payload fields). Numbers are modelled as integers. -/
inductive JVal where
  | null : JVal
  | undef : JVal
  | bool : Bool → JVal
  | num : Int → JVal
  | str : Str → JVal
  | arr : List JVal → JVal
  | obj : List (Str × JVal) → JVal

/-- JavaScript truthiness of a `JVal`. -/
def jvTruthy : JVal → Bool
  | .null => false
  | .undef => false
  | .bool b => b
  | .num n => n != 0
  | .str s => !s.isEmpty
  | .arr _ => true
  | .obj _ => true

/-- Minimal JSON string escaping (quote, backslash and the common control
characters; `\\u` escapes for other control characters are not modelled). -/
def escChar (c : Char) : Str :=
  if c = '"' then str "\\\""
  else if c = '\\' then str "\\\\"
  else if c = '\n' then str "\\n"
  else if c = '\t' then str "\\t"
  else if c = '\r' then str "\\r"
  else [c]

/-- Escape a whole string for inclusion in a JSON literal. -/
def escStr : Str → Str
  | [] => []
  | c :: rest => escChar c ++ escStr rest

mutual
/-- `JSON.stringify(value)` (compact form). `undefined` only occurs inside
arrays (rendered `null`) or as an object member value (member omitted). -/
def jsonStringify : JVal → Str
  | .null => str "null"
  | .undef => str "null"
  | .bool b => if b then str "true" else str "false"
  | .num n => intToStr n
  | .str s => '"' :: escStr s ++ ['"']
  | .arr xs => '[' :: jsonStringifyItems xs ++ [']']
  | .obj kvs => '\x7b' :: jsonStringifyFields kvs ++ ['\x7d']

/-- Array elements of compact `JSON.stringify`, comma separated. -/
def jsonStringifyItems : List JVal → Str
  | [] => []
  | [v] => jsonStringify v
  | v :: w :: t => jsonStringify v ++ ',' :: jsonStringifyItems (w :: t)

/-- Object members of compact `JSON.stringify`; `undefined`-valued members
are omitted, as in JavaScript. -/
def jsonStringifyFields : List (Str × JVal) → Str
  | [] => []
  | (_, .undef) :: t => jsonStringifyFields t
  | (k, v) :: t =>
    let item := '"' :: escStr k ++ str "\":" ++ jsonStringify v
    match jsonStringifyFields t with
    | [] => item
    | rest => item ++ ',' :: rest
end

/-- `n` spaces. -/
def spaces (n : Nat) : Str := List.replicate n ' '

mutual
/-- `JSON.stringify(value, null, 2)` at indentation level `ind`. -/
def jsonPretty (ind : Nat) : JVal → Str
  | .null => str "null"
  | .undef => str "null"
  | .bool b => if b then str "true" else str "false"
  | .num n => intToStr n
  | .str s => '"' :: escStr s ++ ['"']
  | .arr xs =>
    match jsonPrettyItems (ind + 2) xs with
    | [] => str "[]"
    | items => '[' :: '\n' :: joinSep (str ",\n") items ++ '\n' :: spaces ind ++ [']']
  | .obj kvs =>
    match jsonPrettyFields (ind + 2) kvs with
    | [] => str "\x7b\x7d"
    | items => '\x7b' :: '\n' :: joinSep (str ",\n") items ++ '\n' :: spaces ind ++ ['\x7d']

/-- Array elements of indented `JSON.stringify` (`undefined` renders `null`). -/
def jsonPrettyItems (ind : Nat) : List JVal → List Str
  | [] => []
  | v :: t => (spaces ind ++ jsonPretty ind v) :: jsonPrettyItems ind t

/-- Object members of indented `JSON.stringify` (`undefined` members omitted). -/
def jsonPrettyFields (ind : Nat) : List (Str × JVal) → List Str
  | [] => []
  | (_, .undef) :: t => jsonPrettyFields ind t
  | (k, v) :: t =>
    (spaces ind ++ '"' :: escStr k ++ str "\": " ++ jsonPretty ind v) :: jsonPrettyFields ind t
end

mutual
/-- `formatToolParamValue` from `src/utils.ts` (identical copy in
`src/index.ts`): compact single-line rendering of a tool parameter value.
`value.slice(0, 3).map(format)` is written as map-then-`take`, which yields
the same list. -/
def formatToolParamValue : JVal → Str
  | .null => str "null"
  | .undef => str "undefined"
  | .str s =>
    if 100 < s.length then '"' :: (s.take 97 ++ str "...") ++ ['"']
    else '"' :: s ++ ['"']
  | .num n => intToStr n
  | .bool b => if b then str "true" else str "false"
  | .arr xs =>
    if xs.length = 0 then str "[]"
    else if xs.length ≤ 3 then
      '[' :: joinSep (str ", ") (fmtParamList xs) ++ [']']
    else
      '[' :: joinSep (str ", ") ((fmtParamList xs).take 3)
        ++ str ", ... +" ++ natToStr (xs.length - 3) ++ str " more]"
  | .obj kvs =>
    match kvs with
    | [] => str "\x7b\x7d"
    | [(k, v)] => str "\x7b " ++ k ++ str ": " ++ formatToolParamValue v ++ str " \x7d"
    | _ =>
      let json := jsonStringify (.obj kvs)
      if json.length ≤ 80 then json
      else str "\x7b " ++ natToStr kvs.length ++ str " properties \x7d"

/-- `value.map((v) => formatToolParamValue(v))`. -/
def fmtParamList : List JVal → List Str
  | [] => []
  | v :: vs => formatToolParamValue v :: fmtParamList vs
end

/-- Identity color functions: picocolors with color support disabled
(non-interactive output, as fixed by the repository's tests). -/
def pcDim (s : Str) : Str := s

/-- picocolors `bold`, disabled. -/
def pcBold (s : Str) : Str := s

/-- picocolors `blue`, disabled. -/
def pcBlue (s : Str) : Str := s

/-- picocolors `green`, disabled. -/
def pcGreen (s : Str) : Str := s

/-- picocolors `red`, disabled. -/
def pcRed (s : Str) : Str := s

/-- picocolors `yellow`, disabled. -/
def pcYellow (s : Str) : Str := s

/-- picocolors `cyan`, disabled. -/
def pcCyan (s : Str) : Str := s

/-- picocolors `magenta`, disabled. -/
def pcMagenta (s : Str) : Str := s

/-- picocolors `italic`, disabled. -/
def pcItalic (s : Str) : Str := s

/-- picocolors `gray`, disabled. -/
def pcGray (s : Str) : Str := s

/-- Template interpolation of a possibly-absent string field
(JavaScript renders `undefined`). -/
def showOpt : Option Str → Str
  | some s => s
  | none => str "undefined"

/-- JavaScript truthiness of a possibly-absent string (absent and the
empty string are falsy). -/
def truthy : Option Str → Bool
  | some s => !s.isEmpty
  | none => false

/-- JavaScript truthiness of a possibly-absent boolean flag. -/
def truthyB : Option Bool → Bool
  | some b => b
  | none => false

/-- JavaScript truthiness of a possibly-absent `JVal` field. -/
def truthyJ : Option JVal → Bool
  | some v => jvTruthy v
  | none => false

/-- `createLine` from `src/index.ts`: a horizontal line of `width` copies
of `char`. -/
def createLine (char : Char) (width : Nat) : Str := List.replicate width char

/-- `createBox` from `src/index.ts`: content wrapped between two dimmed
horizontal rules with a header line. -/
def createBox (width : Nat) (header content : Str) : Str :=
  let topLine := createLine '─' width
  let bottomLine := createLine '─' width
  pcDim topLine ++ str "\n" ++ header ++ str "\n" ++ content ++ str "\n" ++ pcDim bottomLine

/-- A raw JSON object: the key/value map underlying a parsed record, as
consulted by the presence-based validator (`'field' in message`). -/
abbrev JObj := List (Str × JVal)

/-- `'field' in message`. -/
def hasKey (o : JObj) (k : Str) : Bool := o.any (fun kv => kv.1 = k)

/-- The `requiredFields` list of `validateResultMessage`
(`src/index.ts:122-129`). -/
def requiredResultFields : List Str :=
  [str "duration_ms", str "total_cost_usd", str "usage",
   str "num_turns", str "session_id", str "uuid"]

/-- The required fields absent from a result record's key map. -/
def missingOf (raw : JObj) : List Str :=
  requiredResultFields.filter (fun field => !(hasKey raw field))

/-- The worked example appended to the validation error
(`JSON.stringify` of the example payload in `src/index.ts:135-148`). -/
def resultExampleText : Str :=
  str "Example: npx claude-pretty-printer \x27\x7b\"type\":\"result\",\"subtype\":\"success\",\"duration_ms\":500,\"duration_api_ms\":400,\"num_turns\":1,\"result\":\"Task completed successfully\",\"session_id\":\"test-123\",\"total_cost_usd\":0.005,\"usage\":\x7b\"input_tokens\":100,\"output_tokens\":50\x7d,\"modelUsage\":\x7b\x7d,\"permission_denials\":[],\"uuid\":\"550e8400-e29b-41d4-a716-446655440000\"\x7d\x27"

/-- The message of the error thrown for missing result fields. -/
def resultRequireText (missingFields : List Str) : Str :=
  str "Result messages require these fields: " ++ joinSep (str ", ") missingFields
    ++ str ".\n" ++ resultExampleText

/-- `validateResultMessage` from `src/index.ts:121-151`: check only the
presence of the required keys, throwing an error naming the missing ones. -/
def validateResultMessage (raw : JObj) : Except Str Unit :=
  let missingFields := missingOf raw
  if 0 < missingFields.length then .error (resultRequireText missingFields) else .ok ()

/-- `usage` counters of a result record. Absent cache counters are modelled
as `0`: both are falsy, and the renderer only tests truthiness. -/
structure UsageRec where
  input_tokens : Nat
  output_tokens : Nat
  cache_read_input_tokens : Nat
  cache_creation_input_tokens : Nat

/-- One entry of the `modelUsage` mapping. `costUSD` is held in units of
10^-4 USD (see `costToFixed4`). -/
structure ModelUsage where
  inputTokens : Nat
  outputTokens : Nat
  cacheReadInputTokens : Nat
  cacheCreationInputTokens : Nat
  costUSD : Nat

/-- One permission denial record. -/
structure PermissionDenial where
  tool_name : Str
  tool_use_id : Str

/-- A result (run summary) record: its raw key map (consulted by the
validator) together with the typed values read by the renderer.
`total_cost_usd` is held in units of 10^-4 USD. -/
structure ResultMsg where
  raw : JObj
  subtype : Str
  result : Option Str
  duration_ms : Nat
  duration_api_ms : Nat
  num_turns : Nat
  total_cost_usd : Nat
  usage : UsageRec
  modelUsage : List (Str × ModelUsage)
  permission_denials : List PermissionDenial

/-- Status lines keyed by the completion subtype
(`formatResultMessage`, `src/index.ts:322-329`). -/
def resultStatusLines (m : ResultMsg) : List Str :=
  if m.subtype = str "success" then
    [pcGreen (str "✓ Task completed successfully"),
     str "\n" ++ pcBold (str "Result:") ++ str " " ++ showOpt m.result]
  else if m.subtype = str "error_max_turns" then
    [pcRed (str "✗ Error: Maximum turns reached")]
  else if m.subtype = str "error_during_execution" then
    [pcRed (str "✗ Error during execution")]
  else []

/-- The statistics block (`src/index.ts:331-335`). -/
def resultStatsLines (m : ResultMsg) : List Str :=
  [str "\n" ++ pcBold (str "Statistics:"),
   str "  " ++ pcDim (str "Duration:") ++ str " " ++ msToFixed2 m.duration_ms ++ str "s",
   str "  " ++ pcDim (str "API Time:") ++ str " " ++ msToFixed2 m.duration_api_ms ++ str "s",
   str "  " ++ pcDim (str "Turns:") ++ str " " ++ natToStr m.num_turns,
   str "  " ++ pcDim (str "Cost:") ++ str " " ++ pcYellow ('$' :: costToFixed4 m.total_cost_usd)]

/-- The token-usage block (`src/index.ts:338-350`); cache counters appear
only when truthy (nonzero). -/
def resultUsageLines (m : ResultMsg) : List Str :=
  [str "\n" ++ pcBold (str "Token Usage:"),
   str "  " ++ pcDim (str "Input:") ++ str " " ++ toLocale m.usage.input_tokens,
   str "  " ++ pcDim (str "Output:") ++ str " " ++ toLocale m.usage.output_tokens]
  ++ (if m.usage.cache_read_input_tokens ≠ 0 then
        [str "  " ++ pcDim (str "Cache Read:") ++ str " "
          ++ pcCyan (toLocale m.usage.cache_read_input_tokens)]
      else [])
  ++ (if m.usage.cache_creation_input_tokens ≠ 0 then
        [str "  " ++ pcDim (str "Cache Creation:") ++ str " "
          ++ toLocale m.usage.cache_creation_input_tokens]
      else [])

/-- Lines for one entry of the per-model usage block (`src/index.ts:355-370`). -/
def perModelLines (p : Str × ModelUsage) : List Str :=
  [str "  " ++ pcCyan p.1 ++ str ":",
   str "    " ++ pcDim (str "Input:") ++ str " " ++ toLocale p.2.inputTokens,
   str "    " ++ pcDim (str "Output:") ++ str " " ++ toLocale p.2.outputTokens]
  ++ (if p.2.cacheReadInputTokens ≠ 0 then
        [str "    " ++ pcDim (str "Cache Read:") ++ str " "
          ++ pcCyan (toLocale p.2.cacheReadInputTokens)]
      else [])
  ++ (if p.2.cacheCreationInputTokens ≠ 0 then
        [str "    " ++ pcDim (str "Cache Creation:") ++ str " "
          ++ toLocale p.2.cacheCreationInputTokens]
      else [])
  ++ [str "    " ++ pcDim (str "Cost:") ++ str " " ++ pcYellow ('$' :: costToFixed4 p.2.costUSD)]

/-- The per-model usage block, present only when the mapping is non-empty. -/
def modelUsageLines (m : ResultMsg) : List Str :=
  if m.modelUsage.isEmpty then []
  else (str "\n" ++ pcBold (str "Per-Model Usage:")) :: (m.modelUsage.map perModelLines).flatten

/-- The permission-denials block, present only when the list is non-empty. -/
def denialLines (m : ResultMsg) : List Str :=
  if m.permission_denials.isEmpty then []
  else (str "\n" ++ pcBold (pcRed (str "Permission Denials:")) ++ str " "
          ++ natToStr m.permission_denials.length)
    :: m.permission_denials.map (fun denial =>
        str "  " ++ pcRed (str "•") ++ str " " ++ denial.tool_name ++ str " "
          ++ pcDim ('(' :: denial.tool_use_id ++ [')']))

/-- `formatResultMessage` from `src/index.ts:319-382`. -/
def formatResultMessage (m : ResultMsg) : Str :=
  joinSep (str "\n")
    (resultStatusLines m ++ resultStatsLines m ++ resultUsageLines m
      ++ modelUsageLines m ++ denialLines m)

/-- A nested block inside a `tool_result` content array. -/
inductive TRInner where
  | textTR : Str → TRInner
  | imageTR : TRInner
  | otherInner : Str → TRInner

/-- Inner content of a `tool_result` block: a string, an array of nested
blocks, or anything else (ignored by the renderer). -/
inductive TRContent where
  | strTR : Str → TRContent
  | arrTR : List TRInner → TRContent
  | otherTR : TRContent

/-- One element of a user message content array: a bare string, a typed
block, or an unrecognized block (skipped). -/
inductive UserBlock where
  | strBlk : Str → UserBlock
  | textBlk : Str → UserBlock
  | imageBlk : UserBlock
  | toolResultBlk : Str → TRContent → Bool → UserBlock
  | otherBlk : Str → UserBlock

/-- `message.content` of a user record: a plain string or an array of blocks. -/
inductive UserContent where
  | strC : Str → UserContent
  | blocksC : List UserBlock → UserContent

/-- The `message` payload of a user record. -/
structure UserInner where
  content : UserContent

/-- A user-turn record. `isReplay` mirrors the `'isReplay' in message &&
message.isReplay` check; `message` is optional because validation tests its
presence. -/
structure UserMsg where
  message : Option UserInner
  isReplay : Option Bool
  isSynthetic : Bool

/-- Lines rendered for the content of one `tool_result` block
(`src/index.ts:291-301`). -/
def toolResultContentLines : TRContent → List Str
  | .strTR s => [s]
  | .arrTR items =>
    (items.map (fun contentBlock =>
      match contentBlock with
      | .textTR s => [s]
      | .imageTR => [pcDim (str "[Image result]")]
      | .otherInner _ => [])).flatten
  | .otherTR => []

/-- Lines rendered for one user content block (`src/index.ts:280-306`). -/
def userBlockLines : UserBlock → List Str
  | .strBlk s => [s]
  | .textBlk s => [s]
  | .imageBlk => [pcDim (str "[Image]")]
  | .toolResultBlk tool_use_id content is_error =>
    (str "\n" ++ (if is_error then pcRed (str "✗") else pcGreen (str "✓"))
      ++ str " " ++ pcDim (str "Tool result: " ++ tool_use_id))
    :: toolResultContentLines content
    ++ (if is_error then [pcRed (str "✗ Error in tool execution")] else [])
  | .otherBlk _ => []

/-- Whether a block is a `tool_result` block (sets the `hasToolResults`
flag during the source's loop). -/
def isToolResultBlk : UserBlock → Bool
  | .toolResultBlk _ _ _ => true
  | _ => false

/-- Content lines of a user record (`src/index.ts:277-307`). -/
def userContentLines : UserContent → List Str
  | .strC s => [s]
  | .blocksC bs => (bs.map userBlockLines).flatten

/-- Whether the user content contains at least one `tool_result` block. -/
def userHasToolResults : UserContent → Bool
  | .strC _ => false
  | .blocksC bs => bs.any isToolResultBlk

/-- `formatUserMessage` from `src/index.ts:265-317`: header and content of a
user record. The `message = none` case is unreachable after validation (the
source would crash there); it is given the replay result. -/
def formatUserMessage (m : UserMsg) : Str × Str :=
  if truthyB m.isReplay then (str "", str "")
  else
    match m.message with
    | none => (str "", str "")
    | some inner =>
      let lines := userContentLines inner.content
      let contentText :=
        if m.isSynthetic then pcDim (str "[Synthetic]") ++ str " " ++ joinSep (str "\n") lines
        else joinSep (str "\n") lines
      let header :=
        if userHasToolResults inner.content then pcGreen (str "◆ USER (Tool Results)")
        else pcGreen (str "◆ USER")
      (header, contentText)

/-- One element of an assistant content array. -/
inductive ABlock where
  | textAB : Str → ABlock
  | toolUseAB : Str → Str → Option (List (Str × JVal)) → ABlock
  | otherAB : Str → ABlock

/-- `message.content` of an assistant record: the typed array, or a plain
string (as accepted by the CLI's JSON input). -/
inductive AContent where
  | strAC : Str → AContent
  | arrAC : List ABlock → AContent

/-- A thinking block: `type: 'text'` with text, or some other type. -/
inductive TBlock where
  | textTB : Str → TBlock
  | otherTB : TBlock

/-- `t.type === 'text'`. -/
def isTextTB : TBlock → Bool
  | .textTB _ => true
  | .otherTB => false

/-- `t.text` of a thinking block (unreachable for non-text blocks, which
are filtered out first). -/
def textOfTB : TBlock → Str
  | .textTB s => s
  | .otherTB => str "undefined"

/-- The `message` payload of an assistant record. -/
structure AssistantInner where
  content : AContent
  thinking : Option (List TBlock)

/-- An assistant-turn record. -/
structure AssistantMsg where
  message : Option AssistantInner

/-- The indented `key: value` parameter lines of a tool-use block
(`src/index.ts:239-247`). -/
def toolInputLines : Option (List (Str × JVal)) → List Str
  | some entries =>
    if 0 < entries.length then
      entries.map (fun kv => str "  " ++ pcDim kv.1 ++ str ": " ++ formatToolParamValue kv.2)
    else []
  | none => []

/-- Lines for one assistant content block (`src/index.ts:230-249`). -/
def assistantBlockLines : ABlock → List Str
  | .textAB text => [text]
  | .toolUseAB _ name input =>
    (str "\n" ++ pcCyan (str "→") ++ str " " ++ pcBold name) :: toolInputLines input
  | .otherAB _ => []

/-- The joined thinking text (`src/index.ts:252-256`): text blocks filtered,
mapped to their text, joined with newlines; the empty string when the
`thinking` field is absent. -/
def thinkingText : Option (List TBlock) → Str
  | none => str ""
  | some ts => joinSep (str "\n") ((ts.filter isTextTB).map textOfTB)

/-- `formatAssistantMessage` from `src/index.ts:225-263`. When the content
is a plain string, `for ... of` iterates its characters; a character matches
neither `'text'` nor `'tool_use'`, so no line is pushed. The `message = none`
case is unreachable after validation. -/
def formatAssistantMessage (m : AssistantMsg) : Str :=
  match m.message with
  | none => str ""
  | some inner =>
    let contentLines :=
      match inner.content with
      | .strAC _ => ([] : List Str)
      | .arrAC bs => (bs.map assistantBlockLines).flatten
    let thinking := thinkingText inner.thinking
    let lines :=
      contentLines ++
        (if !thinking.isEmpty then
          [str "\n" ++ pcDim (pcItalic (str "[Thinking]")) ++ str "\n" ++ pcDim thinking]
        else [])
    joinSep (str "\n") lines

/-- A `hook_response` system record together with the hook-specific payload
fields read by the lifecycle hook formatters (all dynamically optional). -/
structure HookRespMsg where
  hook_name : Option Str
  hook_event : Option Str
  stdout : Option Str
  stderr : Option Str
  exit_code : Option Int
  cwd : Option Str
  tool_name : Option Str
  tool_input : Option JVal
  tool_response : Option JVal
  title : Option Str
  message : Option Str
  prompt : Option Str
  source : Option Str
  transcript_path : Option Str
  permission_mode : Option Str
  reason : Option Str
  stop_hook_active : Option Bool
  trigger : Option Str
  custom_instructions : Option Str

/-- The string form of a pretty-printed hook field: itself if a string,
otherwise `JSON.stringify(·, null, 2)`. -/
def prettyFieldStr : JVal → Str
  | .str s => s
  | v => jsonPretty 0 v

/-- `formatPreToolUseHook` from the hook formatter module. -/
def formatPreToolUseHook (m : HookRespMsg) : Str :=
  joinSep (str "\n")
    ([str "\n" ++ pcBlue (str "🔧") ++ str " " ++ pcBold (str "Pre-Tool Use:")
        ++ str " " ++ pcCyan (showOpt m.tool_name)]
     ++ (if truthy m.cwd then
          [str "   " ++ pcDim (str "Working directory:") ++ str " " ++ (m.cwd.getD [])]
        else [])
     ++ (if truthyJ m.tool_input then
          [str "\n" ++ pcDim (str "Tool input:"),
           indentBy (str "  ") (prettyFieldStr (m.tool_input.getD .undef))]
        else []))

/-- The `'... (truncated)'` marker appended by the truncating hook
formatters. -/
def truncatedMarker : Str := pcDim (str "... (truncated)")

/-- `formatPostToolUseHook`: header and working-directory lines (everything
before the tool response). -/
def postToolUseHeadLines (m : HookRespMsg) : List Str :=
  [str "\n" ++ pcGreen (str "✅") ++ str " " ++ pcBold (str "Post-Tool Use:")
     ++ str " " ++ pcCyan (showOpt m.tool_name)]
  ++ (if truthy m.cwd then
       [str "   " ++ pcDim (str "Working directory:") ++ str " " ++ (m.cwd.getD [])]
     else [])

/-- `formatPostToolUseHook` from the hook formatter module: tool responses
longer than 500 characters are cut at 500 and get the truncation marker. -/
def formatPostToolUseHook (m : HookRespMsg) : Str :=
  joinSep (str "\n")
    (postToolUseHeadLines m
     ++ (match m.tool_response with
         | none => []
         | some r =>
           let responseStr := prettyFieldStr r
           let truncatedResponse :=
             if 500 < responseStr.length then responseStr.take 500 ++ truncatedMarker
             else responseStr
           [str "\n" ++ pcDim (str "Tool response:"),
            indentBy (str "  ") truncatedResponse]))

/-- `formatNotificationHook` from the hook formatter module. -/
def formatNotificationHook (m : HookRespMsg) : Str :=
  joinSep (str "\n")
    ([str "\n" ++ pcYellow (str "🔔") ++ str " " ++ pcBold (str "Notification")]
     ++ (if truthy m.title then [str "   " ++ pcCyan (m.title.getD [])] else [])
     ++ (if truthy m.message then
          [str "\n" ++ pcDim (str "Message:"), indentBy (str "  ") (m.message.getD [])]
        else [])
     ++ (if truthy m.cwd then
          [str "\n   " ++ pcDim (str "Location:") ++ str " " ++ (m.cwd.getD [])]
        else []))

/-- `formatUserPromptSubmitHook`: prompts longer than 200 characters are cut
at 200 and get the truncation marker. -/
def formatUserPromptSubmitHook (m : HookRespMsg) : Str :=
  joinSep (str "\n")
    ([str "\n" ++ pcMagenta (str "📝") ++ str " " ++ pcBold (str "User Prompt Submitted")]
     ++ (if truthy m.cwd then
          [str "   " ++ pcDim (str "Working directory:") ++ str " " ++ (m.cwd.getD [])]
        else [])
     ++ (if truthy m.prompt then
          let p := m.prompt.getD []
          let preview := if 200 < p.length then p.take 200 ++ truncatedMarker else p
          [str "\n" ++ pcDim (str "Prompt:"), indentBy (str "  ") preview]
        else []))

/-- The `sourceIcons` lookup of `formatSessionStartHook`. -/
def sessionSourceIcon (source : Option Str) : Str :=
  match source with
  | some s =>
    if s = str "startup" then pcGreen (str "🚀")
    else if s = str "resume" then pcBlue (str "▶️")
    else if s = str "clear" then pcYellow (str "🔄")
    else if s = str "compact" then pcCyan (str "📦")
    else pcGray (str "📍")
  | none => pcGray (str "📍")

/-- `formatSessionStartHook` from the hook formatter module. -/
def formatSessionStartHook (m : HookRespMsg) : Str :=
  joinSep (str "\n")
    ([str "\n" ++ sessionSourceIcon m.source ++ str " " ++ pcBold (str "Session Started")
        ++ str " " ++ pcDim ('(' :: showOpt m.source ++ [')'])]
     ++ (if truthy m.transcript_path then
          [str "   " ++ pcDim (str "Transcript:") ++ str " " ++ (m.transcript_path.getD [])]
        else [])
     ++ (if truthy m.cwd then
          [str "   " ++ pcDim (str "Working directory:") ++ str " " ++ (m.cwd.getD [])]
        else [])
     ++ (if truthy m.permission_mode then
          [str "   " ++ pcDim (str "Permission mode:") ++ str " " ++ (m.permission_mode.getD [])]
        else []))

/-- `formatSessionEndHook` from the hook formatter module. -/
def formatSessionEndHook (m : HookRespMsg) : Str :=
  joinSep (str "\n")
    ([str "\n" ++ pcRed (str "🛑") ++ str " " ++ pcBold (str "Session Ended")]
     ++ (if truthy m.reason then
          [str "   " ++ pcDim (str "Reason:") ++ str " " ++ pcYellow (m.reason.getD [])]
        else [])
     ++ (if truthy m.transcript_path then
          [str "   " ++ pcDim (str "Transcript:") ++ str " " ++ (m.transcript_path.getD [])]
        else [])
     ++ (if truthy m.cwd then
          [str "   " ++ pcDim (str "Working directory:") ++ str " " ++ (m.cwd.getD [])]
        else []))

/-- The shared body of `formatStopHook` and `formatSubagentStopHook`
(they differ only in the header label). -/
def stopHookLines (label : Str) (m : HookRespMsg) : List Str :=
  [str "\n" ++ (if truthyB m.stop_hook_active then pcYellow (str "⏸️") else pcRed (str "🛑"))
     ++ str " " ++ pcBold label]
  ++ (if truthyB m.stop_hook_active then [str "   " ++ pcYellow (str "Stop hook is active")]
      else [str "   " ++ pcDim (str "Stop hook is inactive")])
  ++ (if truthy m.cwd then
       [str "   " ++ pcDim (str "Working directory:") ++ str " " ++ (m.cwd.getD [])]
     else [])
  ++ (if truthy m.transcript_path then
       [str "   " ++ pcDim (str "Transcript:") ++ str " " ++ (m.transcript_path.getD [])]
     else [])

/-- `formatStopHook` from the hook formatter module. -/
def formatStopHook (m : HookRespMsg) : Str :=
  joinSep (str "\n") (stopHookLines (str "Stop Hook Triggered") m)

/-- `formatSubagentStopHook` from the hook formatter module. -/
def formatSubagentStopHook (m : HookRespMsg) : Str :=
  joinSep (str "\n") (stopHookLines (str "Subagent Stop Hook Triggered") m)

/-- The `triggerIcons` lookup of `formatPreCompactHook`. -/
def preCompactIcon (trigger : Option Str) : Str :=
  match trigger with
  | some t =>
    if t = str "manual" then pcBlue (str "👆")
    else if t = str "auto" then pcCyan (str "🤖")
    else pcGray (str "📦")
  | none => pcGray (str "📦")

/-- `formatPreCompactHook` from the hook formatter module. -/
def formatPreCompactHook (m : HookRespMsg) : Str :=
  joinSep (str "\n")
    ([str "\n" ++ preCompactIcon m.trigger ++ str " " ++ pcBold (str "Pre-Compaction")
        ++ str " " ++ pcDim ('(' :: showOpt m.trigger ++ [')'])]
     ++ (if truthy m.custom_instructions then
          [str "\n" ++ pcDim (str "Custom instructions:"),
           joinSep (str "\n")
             ((splitOnNl (m.custom_instructions.getD [])).map
               (fun l => str "  " ++ pcCyan l))]
        else [str "   " ++ pcDim (str "No custom instructions")])
     ++ (if truthy m.transcript_path then
          [str "\n   " ++ pcDim (str "Transcript:") ++ str " " ++ (m.transcript_path.getD [])]
        else [])
     ++ (if truthy m.cwd then
          [str "   " ++ pcDim (str "Working directory:") ++ str " " ++ (m.cwd.getD [])]
        else []))

/-- `formatHookMessage`, the lifecycle notification dispatcher of the hook
formatter module: routes the nine recognized hook-event names to their
formatter and throws (`Error`) on anything else so the caller can fall back. -/
def formatHookMessage (hookEventName : Str) (hookData : HookRespMsg) : Except Str Str :=
  if hookEventName = str "PreToolUse" then .ok (formatPreToolUseHook hookData)
  else if hookEventName = str "PostToolUse" then .ok (formatPostToolUseHook hookData)
  else if hookEventName = str "Notification" then .ok (formatNotificationHook hookData)
  else if hookEventName = str "UserPromptSubmit" then .ok (formatUserPromptSubmitHook hookData)
  else if hookEventName = str "SessionStart" then .ok (formatSessionStartHook hookData)
  else if hookEventName = str "SessionEnd" then .ok (formatSessionEndHook hookData)
  else if hookEventName = str "Stop" then .ok (formatStopHook hookData)
  else if hookEventName = str "SubagentStop" then .ok (formatSubagentStopHook hookData)
  else if hookEventName = str "PreCompact" then .ok (formatPreCompactHook hookData)
  else .error (str "Unknown hook type: " ++ hookEventName)

/-- An MCP server entry of an `init` system record. -/
structure McpServer where
  name : Str
  status : Str

/-- A system record, dispatched on its `subtype` string; unrecognized
subtypes fall to the catch-all. -/
inductive SystemMsg where
  | init : Str → Str → Str → Str → Str → List Str → List McpServer → List Str →
      Option (List Str) → Option (List Str) → SystemMsg
  | compactBoundary : Str → Nat → SystemMsg
  | hookResponse : HookRespMsg → SystemMsg
  | otherSub : Str → SystemMsg

/-- The per-server status emoji of the `init` renderer. -/
def mcpStatusIcon (status : Str) : Str :=
  if status = str "connected" then pcGreen (str "✓")
  else if status = str "failed" then pcRed (str "✗")
  else if status = str "needs-auth" then pcYellow (str "⚠")
  else pcDim (str "○")

/-- Lines of the `init` branch of `formatSystemMessage`
(`src/index.ts:385-425`). -/
def initLines (version model cwd permissionMode apiKeySource : Str)
    (tools : List Str) (mcp_servers : List McpServer) (slash_commands : List Str)
    (agents skills : Option (List Str)) : List Str :=
  [str "\n" ++ pcBold (str "Claude Code Session Initialized"),
   str "\n" ++ pcDim (str "Version:") ++ str " " ++ version,
   pcDim (str "Model:") ++ str " " ++ pcCyan model,
   pcDim (str "Working Directory:") ++ str " " ++ cwd,
   pcDim (str "Permission Mode:") ++ str " " ++ permissionMode,
   pcDim (str "API Key Source:") ++ str " " ++ apiKeySource]
  ++ (if 0 < tools.length then
       [str "\n" ++ pcDim (str "Available Tools:") ++ str " " ++ natToStr tools.length]
     else [])
  ++ (if 0 < mcp_servers.length then
       (str "\n" ++ pcBold (str "MCP Servers:"))
         :: mcp_servers.map (fun server =>
             str "  " ++ mcpStatusIcon server.status ++ str " " ++ server.name
               ++ str " " ++ pcDim ('(' :: server.status ++ [')']))
     else [])
  ++ (if 0 < slash_commands.length then
       [str "\n" ++ pcDim (str "Slash Commands:") ++ str " " ++ joinSep (str ", ") slash_commands]
     else [])
  ++ (match agents with
      | some l => if 0 < l.length then
          [str "\n" ++ pcDim (str "Agents:") ++ str " " ++ joinSep (str ", ") l]
        else []
      | none => [])
  ++ (match skills with
      | some l => if 0 < l.length then
          [str "\n" ++ pcDim (str "Skills:") ++ str " " ++ joinSep (str ", ") l]
        else []
      | none => [])

/-- Lines of the `hook_response` branch of `formatSystemMessage`
(`src/index.ts:435-468`): the generic hook rendering (name/event header,
stdout/stderr sections, exit-code line). -/
def hookGenericLines (h : HookRespMsg) : List Str :=
  [str "\n" ++ pcCyan (str "⚙") ++ str " " ++ pcBold (str "Hook:") ++ str " "
     ++ showOpt h.hook_name ++ str " " ++ pcDim ('(' :: showOpt h.hook_event ++ [')'])]
  ++ (if truthy h.stdout then
       [str "\n" ++ pcDim (str "stdout:"), indentBy (str "  ") (h.stdout.getD [])]
     else [])
  ++ (if truthy h.stderr then
       [str "\n" ++ pcDim (str "stderr:"), pcRed (indentBy (str "  ") (h.stderr.getD []))]
     else [])
  ++ (match h.exit_code with
      | some exit_code =>
        [str "\n" ++ (if exit_code = 0 then pcGreen (str "✓") else pcRed (str "✗"))
           ++ str " " ++ pcDim (str "Exit code:") ++ str " " ++ intToStr exit_code]
      | none => [])

/-- `formatSystemMessage` from `src/index.ts:384-472`. Note: the
`hook_response` branch renders the generic hook block directly; it does not
call `formatHookMessage`. -/
def formatSystemMessage : SystemMsg → Str
  | .init version model cwd permissionMode apiKeySource tools mcp_servers
      slash_commands agents skills =>
    joinSep (str "\n")
      (initLines version model cwd permissionMode apiKeySource tools mcp_servers
        slash_commands agents skills)
  | .compactBoundary trigger pre_tokens =>
    joinSep (str "\n")
      [str "\n" ++ pcYellow (str "⚡") ++ str " " ++ pcBold (str "Conversation Compacted")
         ++ str " " ++ pcDim ('(' :: trigger ++ [')']),
       str "   " ++ pcDim (str "Previous tokens:") ++ str " " ++ toLocale pre_tokens]
  | .hookResponse h => joinSep (str "\n") (hookGenericLines h)
  | .otherSub _ => pcDim (str "[Unknown system message subtype]")

/-- The `content_block` of a `content_block_start` stream event. -/
inductive CBlock where
  | toolUseCB : Str → Str → CBlock
  | otherCB : Str → CBlock

/-- The `delta` of a `content_block_delta` stream event. -/
inductive Delta where
  | textDelta : Str → Delta
  | inputJsonDelta : Str → Delta
  | otherDelta : Str → Delta

/-- A stream sub-event, dispatched on its `type`. -/
inductive StreamEvent where
  | messageStart : StreamEvent
  | contentBlockStart : CBlock → StreamEvent
  | contentBlockDelta : Delta → StreamEvent
  | contentBlockStop : StreamEvent
  | messageDelta : StreamEvent
  | messageStop : StreamEvent
  | otherEvent : Str → StreamEvent

/-- `formatStreamEvent` from `src/formatters/stream.ts` (identical copy in
`src/index.ts:474-508`). -/
def formatStreamEvent : StreamEvent → Str
  | .messageStart => str ""
  | .contentBlockStart cb =>
    match cb with
    | .toolUseCB _ name => str "\n" ++ pcDim (str "[Starting tool: " ++ name ++ str "]")
    | .otherCB _ => str ""
  | .contentBlockDelta d =>
    match d with
    | .textDelta text => text
    | .inputJsonDelta partial_json => partial_json
    | .otherDelta _ => str ""
  | .contentBlockStop => str ""
  | .messageDelta => str ""
  | .messageStop => str ""
  | .otherEvent _ => str ""

/-- An SDK message, dispatched on its `type` tag; unrecognized tags fall to
the catch-all. -/
inductive SDKMessage where
  | assistant : AssistantMsg → SDKMessage
  | user : UserMsg → SDKMessage
  | result : ResultMsg → SDKMessage
  | system : SystemMsg → SDKMessage
  | streamEvent : StreamEvent → SDKMessage
  | unknownType : Str → SDKMessage

/-- `validateAssistantMessage` from `src/index.ts:156-160`. -/
def validateAssistantMessage (m : AssistantMsg) : Except Str Unit :=
  if m.message.isSome then .ok ()
  else .error (str "Assistant messages require a \"message\" field with content")

/-- `validateUserMessage` from `src/index.ts:165-169`. -/
def validateUserMessage (m : UserMsg) : Except Str Unit :=
  if m.message.isSome then .ok ()
  else .error (str "User messages require a \"message\" field with content")

/-- `validateMessage` from `src/index.ts:104-116`: only result, assistant
and user records are validated; everything else passes. -/
def validateMessage : SDKMessage → Except Str Unit
  | .result m => validateResultMessage m.raw
  | .assistant m => validateAssistantMessage m
  | .user m => validateUserMessage m
  | _ => .ok ()

/-- The box-skipping step of `formatMessage` (`src/index.ts:217-222`):
empty/blank content or `showBox = false` returns the bare content, otherwise
the content is boxed under the header. -/
def boxOrContent (width : Nat) (header content : Str) (showBox : Bool) : Str :=
  if !showBox || content.isEmpty || (trimStr content).isEmpty then content
  else createBox width header content

/-- `formatMessage` from `src/index.ts:177-223`: validation first, then
dispatch by record kind; stream events return their rendering directly,
before the box logic. The terminal width is passed explicitly. -/
def formatMessage (width : Nat) (message : SDKMessage) (showBox : Bool) : Except Str Str :=
  match validateMessage message with
  | .error e => .error e
  | .ok _ =>
    match message with
    | .assistant m =>
      .ok (boxOrContent width (pcBlue (str "◆ ASSISTANT")) (formatAssistantMessage m) showBox)
    | .user m =>
      let userResult := formatUserMessage m
      .ok (boxOrContent width userResult.1 userResult.2 showBox)
    | .result m =>
      .ok (boxOrContent width (pcMagenta (str "◆ RESULT")) (formatResultMessage m) showBox)
    | .system m =>
      .ok (boxOrContent width (pcYellow (str "◆ SYSTEM")) (formatSystemMessage m) showBox)
    | .streamEvent event => .ok (formatStreamEvent event)
    | .unknownType tag =>
      .ok (boxOrContent width (pcRed (str "◆ UNKNOWN"))
        (str "[Unknown message type: " ++ tag ++ str "]") showBox)

/-- The stream sub-events that carry visible text: `content_block_start`
for a tool invocation and `content_block_delta` for text or partial JSON. -/
def isVisibleEvent : StreamEvent → Bool
  | .contentBlockStart (.toolUseCB _ _) => true
  | .contentBlockDelta (.textDelta _) => true
  | .contentBlockDelta (.inputJsonDelta _) => true
  | _ => false

/-- Whether a stream event's own text payload (tool name, delta text,
partial JSON) is free of the horizontal-rule character used by boxes. -/
def eventRuleFree : StreamEvent → Bool
  | .contentBlockStart (.toolUseCB _ name) => !(decide ('─' ∈ name))
  | .contentBlockDelta (.textDelta t) => !(decide ('─' ∈ t))
  | .contentBlockDelta (.inputJsonDelta j) => !(decide ('─' ∈ j))
  | _ => true

/-- Everything `formatPostToolUseHook` renders before the (possibly
truncated) tool response block; independent of the response value. -/
def postToolUsePrefix (m : HookRespMsg) : Str :=
  joinSep (str "\n") (postToolUseHeadLines m) ++ str "\n"
    ++ (str "\n" ++ pcDim (str "Tool response:")) ++ str "\n"

/-- A result key map carrying all six required keys with `null` values. -/
def c9raw1 : JObj :=
  [(str "duration_ms", .null), (str "total_cost_usd", .null), (str "usage", .null),
   (str "num_turns", .null), (str "session_id", .null), (str "uuid", .null)]

/-- The same key set as `c9raw1` with plausible well-typed values. -/
def c9raw2 : JObj :=
  [(str "duration_ms", .num 500), (str "total_cost_usd", .num 5),
   (str "usage", .obj [(str "input_tokens", .num 100)]),
   (str "num_turns", .num 1), (str "session_id", .str (str "s")),
   (str "uuid", .str (str "u"))]

/-- A result record whose key map lacks `session_id` and `uuid`. -/
def c1partialMsg : ResultMsg :=
  ⟨[(str "duration_ms", .num 500), (str "total_cost_usd", .num 50),
    (str "usage", .obj []), (str "num_turns", .num 1)],
   str "success", some (str "done"), 500, 400, 1, 50, ⟨100, 50, 0, 0⟩, [], []⟩

/-- A result record carrying every key the validator checks but NOT
`duration_api_ms` (API time). -/
def c1apiMsg : ResultMsg :=
  ⟨[(str "duration_ms", .num 5000), (str "total_cost_usd", .num 123),
    (str "usage", .obj [(str "input_tokens", .num 100), (str "output_tokens", .num 50)]),
    (str "num_turns", .num 5), (str "session_id", .str (str "session-123")),
    (str "uuid", .str (str "test-uuid"))],
   str "success", some (str "done"), 5000, 3000, 5, 123, ⟨100, 50, 0, 0⟩, [], []⟩

/-- The success run summary from the repository's tests: `duration_ms = 5000`,
`duration_api_ms = 3000`, cost 0.0123 USD. -/
def c7msg : ResultMsg :=
  ⟨[(str "duration_ms", .num 5000), (str "total_cost_usd", .num 123),
    (str "usage", .obj []), (str "num_turns", .num 5),
    (str "session_id", .str (str "session-123")), (str "uuid", .str (str "u1"))],
   str "success", some (str "Task completed successfully"), 5000, 3000, 5, 123,
   ⟨5000, 1200, 1000, 500⟩,
   [(str "claude-3-sonnet", ⟨5000, 1200, 1000, 500, 123⟩)], []⟩

/-- A PostToolUse hook record whose tool response is 600 `'x'` characters
(the spec's truncation scenario). -/
def c5msg : HookRespMsg :=
  ⟨some (str "PostToolUse"), some (str "PostToolUse"), some (str "Tool completed"), none,
   some 0, some (str "/tmp"), some (str "Bash"), none,
   some (.str (List.replicate 600 'x')), none, none, none, none, none, none, none,
   none, none, none⟩

/-- A `hook_response` record with the recognized hook event `PreToolUse`
and a PreToolUse payload (tool name, string tool input, stdout, exit code). -/
def c2hook : HookRespMsg :=
  ⟨some (str "PreToolUse"), some (str "PreToolUse"), some (str "Tool execution started"),
   none, some 0, some (str "/tmp"), some (str "Bash"), some (.str (str "ls -la")),
   none, none, none, none, none, none, none, none, none, none, none⟩

/-- Whether `p` is an initial segment of `s` (character-wise). -/
def isPrefixList : Str → Str → Bool
  | [], _ => true
  | _ :: _, [] => false
  | a :: p, b :: s => a == b && isPrefixList p s

/-- Whether `pat` occurs as a contiguous substring of `s`. -/
def occursIn (pat : Str) : Str → Bool
  | [] => isPrefixList pat []
  | c :: rest => isPrefixList pat (c :: rest) || occursIn pat rest

theorem isPrefixList_append (p v : Str) : isPrefixList p (p ++ v) = true := by
  induction p with
  | nil => rfl
  | cons a p ih => simp [isPrefixList, ih]

theorem isPrefixList_exists : ∀ {p s : Str}, isPrefixList p s = true → ∃ t, s = p ++ t := by
  intro p
  induction p with
  | nil => intro s _; exact ⟨s, rfl⟩
  | cons a p ih =>
    intro s h
    cases s with
    | nil => simp [isPrefixList] at h
    | cons b s' =>
      simp only [isPrefixList, Bool.and_eq_true, beq_iff_eq] at h
      obtain ⟨t, ht⟩ := ih h.2
      exact ⟨t, by simp [h.1, ht]⟩

theorem occursIn_of_decomp (pat : Str) :
    ∀ (u v s : Str), s = u ++ pat ++ v → occursIn pat s = true := by
  intro u
  induction u with
  | nil =>
    intro v s h
    subst h
    cases hpv : pat ++ v with
    | nil =>
      have hp : pat = [] := by
        cases pat with
        | nil => rfl
        | cons c p => simp at hpv
      subst hp
      simp only [List.nil_append] at hpv ⊢
      rw [hpv]
      rfl
    | cons c rest =>
      rw [List.nil_append, hpv]
      simp only [occursIn, Bool.or_eq_true]
      left
      rw [← hpv]
      exact isPrefixList_append pat v
  | cons c u ih =>
    intro v s h
    subst h
    simp only [List.cons_append, occursIn, Bool.or_eq_true]
    right
    exact ih v _ rfl

theorem occursIn_exists : ∀ {s pat : Str}, occursIn pat s = true → ∃ u v, s = u ++ pat ++ v := by
  intro s
  induction s with
  | nil =>
    intro pat h
    simp only [occursIn] at h
    obtain ⟨t, ht⟩ := isPrefixList_exists h
    exact ⟨[], t, ht⟩
  | cons c rest ih =>
    intro pat h
    simp only [occursIn, Bool.or_eq_true] at h
    rcases h with h1 | h2
    · obtain ⟨t, ht⟩ := isPrefixList_exists h1
      exact ⟨[], t, by simp [ht]⟩
    · obtain ⟨u, v, huv⟩ := ih h2
      exact ⟨c :: u, v, by simp [huv]⟩

theorem occursIn_sub {pat big s : Str} (hb : occursIn big s = true) (u v : Str)
    (hd : big = u ++ pat ++ v) : occursIn pat s = true := by
  obtain ⟨x, y, hxy⟩ := occursIn_exists hb
  apply occursIn_of_decomp pat (x ++ u) (v ++ y)
  subst hd
  simp [hxy, List.append_assoc]

theorem joinSep_cons_ne (sep a : Str) {l : List Str} (h : l ≠ []) :
    joinSep sep (a :: l) = a ++ sep ++ joinSep sep l := by
  cases l with
  | nil => exact absurd rfl h
  | cons b t => rfl

theorem joinSep_append_singleton (sep x : Str) :
    ∀ (A : List Str), A ≠ [] → joinSep sep (A ++ [x]) = joinSep sep A ++ sep ++ x := by
  intro A
  induction A with
  | nil => intro h; exact absurd rfl h
  | cons a A ih =>
    intro _
    cases A with
    | nil => simp [joinSep]
    | cons b B =>
      have step : (a :: b :: B) ++ [x] = a :: ((b :: B) ++ [x]) := by simp
      rw [step, joinSep_cons_ne sep a (by simp), ih (by simp),
        joinSep_cons_ne sep a (by simp)]
      simp [List.append_assoc]

theorem joinSep_mem_decomp (sep : Str) :
    ∀ {L : List Str} {a : Str}, a ∈ L → ∃ u v, joinSep sep L = u ++ a ++ v := by
  intro L
  induction L with
  | nil => intro a h; cases h
  | cons b t ih =>
    intro a h
    cases t with
    | nil =>
      have hab : a = b := by simpa using h
      exact ⟨[], [], by simp [joinSep, hab]⟩
    | cons c t' =>
      rcases List.mem_cons.mp h with h1 | h2
      · exact ⟨[], sep ++ joinSep sep (c :: t'), by simp [joinSep, h1]⟩
      · obtain ⟨u, v, huv⟩ := ih h2
        exact ⟨b ++ sep ++ u, v, by simp [joinSep, huv]⟩

/-- Substring occurrence inside any element of a joined line list. -/
theorem occursIn_joinSep_of_mem {line : Str} {L : List Str} (sep : Str) (hmem : line ∈ L)
    {pat : Str} (u v : Str) (hline : line = u ++ pat ++ v) :
    occursIn pat (joinSep sep L) = true := by
  obtain ⟨x, y, hxy⟩ := joinSep_mem_decomp sep hmem
  exact occursIn_sub (occursIn_of_decomp line x y _ hxy) u v hline

theorem splitOnNl_ne_nil : ∀ (l : Str), splitOnNl l ≠ [] := by
  intro l
  cases l with
  | nil => simp [splitOnNl]
  | cons c rest =>
    intro hcontra
    unfold splitOnNl at hcontra
    cases hsp : splitOnNl rest with
    | nil => rw [hsp] at hcontra; simp at hcontra
    | cons h t =>
      rw [hsp] at hcontra
      by_cases hc : c = '\n' <;> simp [hc] at hcontra

theorem length_splitOnNl_le : ∀ (l : Str), (splitOnNl l).length ≤ l.length + 1 := by
  intro l
  induction l with
  | nil => simp [splitOnNl]
  | cons c rest ih =>
    unfold splitOnNl
    cases hsp : splitOnNl rest with
    | nil => simp
    | cons h t =>
      rw [hsp] at ih
      simp only [List.length_cons] at ih
      by_cases hc : c = '\n' <;> simp [hc] <;> omega

theorem length_indentBy (pre s : Str) :
    (indentBy pre s).length = s.length + pre.length * (splitOnNl s).length := by
  have hone : (str "\n").length = 1 := rfl
  induction s with
  | nil => simp [indentBy, splitOnNl, joinSep]
  | cons c rest ih =>
    cases hsp : splitOnNl rest with
    | nil => exact absurd hsp (splitOnNl_ne_nil rest)
    | cons h t =>
      rw [indentBy, hsp, List.map_cons] at ih
      by_cases hc : c = '\n'
      · have hstep : splitOnNl (c :: rest) = [] :: h :: t := by
          unfold splitOnNl; rw [hsp]; simp [hc]
        rw [indentBy, hstep, List.map_cons, List.map_cons,
          joinSep_cons_ne _ _ (by simp)]
        cases t with
        | nil =>
          have hm1 : pre.length * (2 : Nat) = pre.length + pre.length := by ring
          simp only [joinSep, List.map_nil] at ih ⊢
          simp only [List.length_append, List.length_cons, List.length_nil,
            List.append_nil, hone] at ih ⊢
          omega
        | cons t0 ts =>
          have hm2 : pre.length * (ts.length + 1 + 1 + 1)
              = pre.length * (ts.length + 1 + 1) + pre.length := by ring
          simp only [List.length_append, List.length_cons, List.length_nil, hone]
            at ih ⊢
          omega
      · have hstep : splitOnNl (c :: rest) = (c :: h) :: t := by
          unfold splitOnNl; rw [hsp]; simp [hc]
        rw [indentBy, hstep, List.map_cons]
        cases t with
        | nil =>
          simp only [joinSep, List.map_nil] at ih ⊢
          simp only [List.length_append, List.length_cons] at ih ⊢
          omega
        | cons t0 ts =>
          rw [joinSep_cons_ne _ _ (by simp)] at ih ⊢
          simp only [List.length_append, List.length_cons, hone] at ih ⊢
          omega

/-- The indentation idiom expands each of the (at most `length + 1`) lines by
the prefix, so its output length is at most `3 * length + 2` for a two-space
prefix. -/
theorem length_indentBy_le (s : Str) :
    (indentBy (str "  ") s).length ≤ 3 * s.length + 2 := by
  have h1 := length_indentBy (str "  ") s
  have h2 := length_splitOnNl_le s
  have hpre : (str "  ").length = 2 := rfl
  rw [hpre] at h1
  omega

/-- C1 (counterexample): the claim says a result record missing the
API-time field must fail validation; `c1apiMsg.raw` lacks `duration_api_ms`
yet validation succeeds and rendering output is produced. -/
theorem c1_api_time_not_required_counterexample :
    hasKey c1apiMsg.raw (str "duration_api_ms") = false ∧
    validateResultMessage c1apiMsg.raw = .ok () ∧
    (formatMessage 80 (.result c1apiMsg) true).isOk = true := by
  refine ⟨by decide, by rfl, ?_⟩
  rfl

/-- C1 (amended): for every result record, if any of `duration_ms`,
`total_cost_usd`, `usage`, `num_turns`, `session_id` or `uuid` is absent
from the key map, `formatMessage` fails before any rendering output is
produced, and the comma-joined list inside the error message names exactly
the absent required fields (API time is not among the validated fields). -/
theorem c1_result_validation_names_missing_required_fields
    (width : Nat) (showBox : Bool) (m : ResultMsg) (h : missingOf m.raw ≠ []) :
    formatMessage width (.result m) showBox = .error (resultRequireText (missingOf m.raw)) ∧
    ∀ f, f ∈ missingOf m.raw ↔ (f ∈ requiredResultFields ∧ hasKey m.raw f = false) := by
  have hlen : 0 < (missingOf m.raw).length := List.length_pos.mpr h
  have hv : validateMessage (.result m) = .error (resultRequireText (missingOf m.raw)) := by
    simp only [validateMessage, validateResultMessage, if_pos hlen]
  constructor
  · simp only [formatMessage, hv]
  · intro f
    unfold missingOf
    rw [List.mem_filter]
    simp [Bool.not_eq_true']

/-- C1 witness: a record lacking `session_id` and `uuid` makes
`formatMessage` fail with an error naming exactly those two fields. -/
theorem c1_result_validation_names_missing_required_fields_witness :
    missingOf c1partialMsg.raw = [str "session_id", str "uuid"] ∧
    formatMessage 80 (.result c1partialMsg) true
      = .error (resultRequireText (missingOf c1partialMsg.raw)) :=
  ⟨by decide,
   (c1_result_validation_names_missing_required_fields 80 true c1partialMsg (by decide)).1⟩

/-- C2 (code bug evidence): for a `hook_response` record whose hook event is
the recognized name `PreToolUse`, `formatSystemMessage` renders the generic
hook block and no event-specific rendering — it never delegates to
`formatHookMessage`, although the lifecycle renderer recognizes the event
(and throws only on unrecognized names, as the fallback design expects). -/
theorem c2_hook_response_not_delegated_to_lifecycle_renderer :
    occursIn (str "⚙ Hook: PreToolUse (PreToolUse)")
      (formatSystemMessage (.hookResponse c2hook)) = true ∧
    occursIn (str "Pre-Tool Use") (formatSystemMessage (.hookResponse c2hook)) = false ∧
    formatHookMessage (str "PreToolUse") c2hook = .ok (formatPreToolUseHook c2hook) ∧
    occursIn (str "Pre-Tool Use") (formatPreToolUseHook c2hook) = true ∧
    formatHookMessage (str "UnknownHook") c2hook
      = .error (str "Unknown hook type: UnknownHook") := by
  refine ⟨by decide, by decide, by rfl, by decide, by rfl⟩

/-- C3: the Value Formatter returns a string parameter of length at most
100 verbatim between two quote characters; for length over 100 it returns
exactly 97 payload characters plus an ellipsis between two quotes — total
length exactly 102, strictly less than the quoted input, never an
expansion. -/
theorem c3_value_formatter_string_truncation (s : Str) :
    (s.length ≤ 100 → formatToolParamValue (.str s) = '"' :: s ++ ['"']) ∧
    (100 < s.length →
      formatToolParamValue (.str s) = '"' :: (s.take 97 ++ str "...") ++ ['"'] ∧
      (formatToolParamValue (.str s)).length = 102 ∧
      (formatToolParamValue (.str s)).length < s.length + 2) := by
  have hunfold : formatToolParamValue (.str s)
      = if 100 < s.length then '"' :: (s.take 97 ++ str "...") ++ ['"']
        else '"' :: s ++ ['"'] := by
    simp [formatToolParamValue]
  constructor
  · intro h
    rw [hunfold, if_neg (by omega)]
  · intro h
    have heq : formatToolParamValue (.str s) = '"' :: (s.take 97 ++ str "...") ++ ['"'] := by
      rw [hunfold, if_pos h]
    have hlen : (formatToolParamValue (.str s)).length = 102 := by
      rw [heq]
      have h3 : (str "...").length = 3 := rfl
      simp only [List.length_append, List.length_cons, List.length_take,
        List.length_nil, h3]
      omega
    exact ⟨heq, hlen, by omega⟩

/-- C3 witness: a 150-character string formats to exactly 102 characters,
and a short string round-trips verbatim in quotes. -/
theorem c3_value_formatter_string_truncation_witness :
    100 < (List.replicate 150 'x').length ∧
    (formatToolParamValue (.str (List.replicate 150 'x'))).length = 102 ∧
    formatToolParamValue (.str (str "hi")) = str "\"hi\"" := by
  refine ⟨by decide,
    ((c3_value_formatter_string_truncation (List.replicate 150 'x')).2 (by decide)).2.1, ?_⟩
  exact ((c3_value_formatter_string_truncation (str "hi")).1 (by decide)).trans (by decide)

/-- C4: a user record with the replay flag set formats to exactly the empty
string — no box, no header — for every message content, synthetic flag,
width and wrap-in-box flag. -/
theorem c4_replay_user_message_renders_empty
    (width : Nat) (showBox : Bool) (inner : UserInner) (syn : Bool) :
    formatMessage width (.user ⟨some inner, some true, syn⟩) showBox = .ok (str "") := by
  simp [formatMessage, validateMessage, validateUserMessage, formatUserMessage,
    truthyB, boxOrContent, trimStr, str]

/-- C5: for a PostToolUse hook record with a tool response, a response text
of at most 500 characters is rendered in full (indented, no marker
appended), and a longer one is rendered as exactly its first 500 characters
followed by the truncation marker, with the total output length bounded by
a constant over the response-independent prefix. -/
theorem c5_post_tool_use_response_truncation
    (m : HookRespMsg) (r : JVal) (hr : m.tool_response = some r) :
    ((prettyFieldStr r).length ≤ 500 →
      formatPostToolUseHook m
        = postToolUsePrefix m ++ indentBy (str "  ") (prettyFieldStr r)) ∧
    (500 < (prettyFieldStr r).length →
      formatPostToolUseHook m
        = postToolUsePrefix m
          ++ indentBy (str "  ") ((prettyFieldStr r).take 500 ++ truncatedMarker) ∧
      (formatPostToolUseHook m).length ≤ (postToolUsePrefix m).length + 1547) := by
  have hne : postToolUseHeadLines m ≠ [] := by
    simp [postToolUseHeadLines]
  have hexp : ∀ (x : Str),
      joinSep (str "\n") (postToolUseHeadLines m
          ++ [str "\n" ++ pcDim (str "Tool response:"), indentBy (str "  ") x])
        = postToolUsePrefix m ++ indentBy (str "  ") x := by
    intro x
    have h2 : postToolUseHeadLines m
        ++ [str "\n" ++ pcDim (str "Tool response:"), indentBy (str "  ") x]
      = (postToolUseHeadLines m ++ [str "\n" ++ pcDim (str "Tool response:")])
          ++ [indentBy (str "  ") x] := by simp
    rw [h2, joinSep_append_singleton _ _ _ (by simp),
      joinSep_append_singleton _ _ _ hne]
    unfold postToolUsePrefix
    simp [List.append_assoc]
  constructor
  · intro hle
    simp only [formatPostToolUseHook, hr]
    rw [if_neg (by omega)]
    exact hexp _
  · intro hgt
    have heq : formatPostToolUseHook m
        = postToolUsePrefix m
          ++ indentBy (str "  ") ((prettyFieldStr r).take 500 ++ truncatedMarker) := by
      simp only [formatPostToolUseHook, hr]
      rw [if_pos hgt]
      exact hexp _
    refine ⟨heq, ?_⟩
    rw [heq]
    have hb := length_indentBy_le ((prettyFieldStr r).take 500 ++ truncatedMarker)
    have hm : (truncatedMarker).length = 15 := rfl
    have htake : ((prettyFieldStr r).take 500 ++ truncatedMarker).length ≤ 515 := by
      have ht := List.length_take 500 (prettyFieldStr r)
      simp only [List.length_append, hm, ht]
      omega
    simp only [List.length_append]
    omega

/-- C5 witness: the spec's scenario — a 600-`'x'` response renders with the
truncation marker and total output strictly shorter than the input length
plus a small constant. -/
theorem c5_post_tool_use_response_truncation_witness :
    500 < (prettyFieldStr (.str (List.replicate 600 'x'))).length ∧
    formatPostToolUseHook c5msg
      = postToolUsePrefix c5msg
        ++ indentBy (str "  ")
          ((prettyFieldStr (.str (List.replicate 600 'x'))).take 500 ++ truncatedMarker) ∧
    occursIn truncatedMarker (formatPostToolUseHook c5msg) = true ∧
    (formatPostToolUseHook c5msg).length < 600 + 250 := by
  refine ⟨by decide, ((c5_post_tool_use_response_truncation c5msg _ rfl).2 (by decide)).1,
    by decide, by decide⟩

/-- C6 (counterexample): a stream text delta is copied verbatim, so a delta
whose text is the horizontal-rule character renders output containing a box
marker — the claim's "never contains a box marker regardless of content"
fails. -/
theorem c6_stream_delta_rule_char_counterexample :
    formatMessage 80 (.streamEvent (.contentBlockDelta (.textDelta (str "─")))) true
      = .ok (str "─") ∧ '─' ∈ str "─" :=
  ⟨rfl, by decide⟩

/-- C6 (amended): stream-delta records are returned without box-wrapping
for every width and wrap-in-box flag; only tool-invocation
content-block-start and text/partial-JSON content-block-delta events carry
visible text (all other sub-events render empty); and the output contains
no horizontal-rule character whenever the event's own text payload contains
none. -/
theorem c6_stream_delta_unboxed_and_classified
    (width : Nat) (showBox : Bool) (ev : StreamEvent) :
    formatMessage width (.streamEvent ev) showBox = .ok (formatStreamEvent ev) ∧
    (eventRuleFree ev = true → ¬ ('─' ∈ formatStreamEvent ev)) ∧
    (isVisibleEvent ev = false → formatStreamEvent ev = str "") := by
  refine ⟨rfl, ?_, ?_⟩
  · intro hfree
    cases ev with
    | contentBlockStart cb =>
      cases cb with
      | toolUseCB id name =>
        simp only [eventRuleFree, Bool.not_eq_true', decide_eq_false_iff_not] at hfree
        simp only [formatStreamEvent, pcDim]
        intro hmem
        have hn1 : ¬ ('─' ∈ str "\n") := by decide
        have hn2 : ¬ ('─' ∈ str "[Starting tool: ") := by decide
        have hn3 : ¬ ('─' ∈ str "]") := by decide
        simp only [List.mem_append] at hmem
        tauto
      | otherCB tag =>
        intro hmem
        simp [formatStreamEvent, str] at hmem
    | contentBlockDelta d =>
      cases d with
      | textDelta t =>
        simp only [eventRuleFree, Bool.not_eq_true', decide_eq_false_iff_not] at hfree
        exact hfree
      | inputJsonDelta j =>
        simp only [eventRuleFree, Bool.not_eq_true', decide_eq_false_iff_not] at hfree
        exact hfree
      | otherDelta tag =>
        intro hmem
        simp [formatStreamEvent, str] at hmem
    | messageStart => intro hmem; simp [formatStreamEvent, str] at hmem
    | contentBlockStop => intro hmem; simp [formatStreamEvent, str] at hmem
    | messageDelta => intro hmem; simp [formatStreamEvent, str] at hmem
    | messageStop => intro hmem; simp [formatStreamEvent, str] at hmem
    | otherEvent tag => intro hmem; simp [formatStreamEvent, str] at hmem
  · intro hvis
    cases ev with
    | contentBlockStart cb =>
      cases cb with
      | toolUseCB id name => simp [isVisibleEvent] at hvis
      | otherCB tag => rfl
    | contentBlockDelta d =>
      cases d with
      | textDelta t => simp [isVisibleEvent] at hvis
      | inputJsonDelta j => simp [isVisibleEvent] at hvis
      | otherDelta tag => rfl
    | messageStart => rfl
    | contentBlockStop => rfl
    | messageDelta => rfl
    | messageStop => rfl
    | otherEvent tag => rfl

/-- C6 witness: a plain text delta carries no rule character, and a
message-start event renders empty. -/
theorem c6_stream_delta_unboxed_and_classified_witness :
    eventRuleFree (.contentBlockDelta (.textDelta (str "Hello"))) = true ∧
    ¬ ('─' ∈ formatStreamEvent (.contentBlockDelta (.textDelta (str "Hello")))) ∧
    isVisibleEvent .messageStart = false ∧
    formatStreamEvent .messageStart = str "" :=
  ⟨by decide, (c6_stream_delta_unboxed_and_classified 80 true _).2.1 (by decide),
   by decide, (c6_stream_delta_unboxed_and_classified 80 true _).2.2 rfl⟩

/-- C7: every run-summary rendering contains a `Duration`/`API Time` line
holding the millisecond fields formatted to exactly two decimals, and the
cost formatting carries exactly four; in particular a success record with
`duration_ms = 5000` and `duration_api_ms = 3000` contains the literal
texts `Duration: 5.00s` and `API Time: 3.00s`. -/
theorem c7_result_statistics_decimal_rendering (m : ResultMsg) :
    occursIn (str "  Duration: " ++ msToFixed2 m.duration_ms ++ str "s")
      (formatResultMessage m) = true ∧
    occursIn (str "  API Time: " ++ msToFixed2 m.duration_api_ms ++ str "s")
      (formatResultMessage m) = true ∧
    msToFixed2 m.duration_ms
      = natToStr (((m.duration_ms + 5) / 10) / 100)
        ++ '.' :: twoDigits (((m.duration_ms + 5) / 10) % 100) ∧
    (twoDigits (((m.duration_ms + 5) / 10) % 100)).length = 2 ∧
    costToFixed4 m.total_cost_usd
      = natToStr (m.total_cost_usd / 10000) ++ '.' :: fourDigits (m.total_cost_usd % 10000) ∧
    (fourDigits (m.total_cost_usd % 10000)).length = 4 ∧
    (m.subtype = str "success" → m.duration_ms = 5000 → m.duration_api_ms = 3000 →
      occursIn (str "Duration: 5.00s") (formatResultMessage m) = true ∧
      occursIn (str "API Time: 3.00s") (formatResultMessage m) = true) := by
  have hheadD : str "  " ++ pcDim (str "Duration:") ++ str " " = str "  Duration: " := by
    decide
  have hheadA : str "  " ++ pcDim (str "API Time:") ++ str " " = str "  API Time: " := by
    decide
  have hmemD : (str "  " ++ pcDim (str "Duration:") ++ str " "
        ++ msToFixed2 m.duration_ms ++ str "s")
      ∈ (resultStatusLines m ++ resultStatsLines m ++ resultUsageLines m
          ++ modelUsageLines m ++ denialLines m) := by
    simp [resultStatsLines]
  have hmemA : (str "  " ++ pcDim (str "API Time:") ++ str " "
        ++ msToFixed2 m.duration_api_ms ++ str "s")
      ∈ (resultStatusLines m ++ resultStatsLines m ++ resultUsageLines m
          ++ modelUsageLines m ++ denialLines m) := by
    simp [resultStatsLines]
  have h1 : occursIn (str "  Duration: " ++ msToFixed2 m.duration_ms ++ str "s")
      (formatResultMessage m) = true := by
    unfold formatResultMessage
    exact occursIn_joinSep_of_mem _ hmemD [] [] (by rw [hheadD]; simp)
  have h2 : occursIn (str "  API Time: " ++ msToFixed2 m.duration_api_ms ++ str "s")
      (formatResultMessage m) = true := by
    unfold formatResultMessage
    exact occursIn_joinSep_of_mem _ hmemA [] [] (by rw [hheadA]; simp)
  refine ⟨h1, h2, rfl, rfl, rfl, rfl, ?_⟩
  intro _ hdm hda
  constructor
  · rw [hdm] at h1
    exact occursIn_sub h1 (str "  ") [] (by decide)
  · rw [hda] at h2
    exact occursIn_sub h2 (str "  ") [] (by decide)

/-- C7 witness: the test suite's success record renders both literal
statistics lines. -/
theorem c7_result_statistics_decimal_rendering_witness :
    occursIn (str "Duration: 5.00s") (formatResultMessage c7msg) = true ∧
    occursIn (str "API Time: 3.00s") (formatResultMessage c7msg) = true :=
  (c7_result_statistics_decimal_rendering c7msg).2.2.2.2.2.2 rfl rfl rfl

/-- C8: for every non-replay user record, the header is the plain user
header exactly when no tool-result block is present and the
"(Tool Results)"-suffixed header exactly when one is, the suffixed header
being the plain header plus a suffix. -/
theorem c8_user_header_tool_results_suffix
    (inner : UserInner) (rep : Option Bool) (syn : Bool) (h : truthyB rep = false) :
    (formatUserMessage ⟨some inner, rep, syn⟩).1
      = (if userHasToolResults inner.content then str "◆ USER (Tool Results)"
         else str "◆ USER") ∧
    str "◆ USER (Tool Results)" = str "◆ USER" ++ str " (Tool Results)" ∧
    str "◆ USER (Tool Results)" ≠ str "◆ USER" := by
  refine ⟨?_, by decide, by decide⟩
  simp [formatUserMessage, h, pcGreen]

/-- C8 witness: a record with one tool-result block gets the suffixed
header; a plain-string record gets the plain header. -/
theorem c8_user_header_tool_results_suffix_witness :
    truthyB none = false ∧
    (formatUserMessage ⟨some ⟨UserContent.blocksC
        [.toolResultBlk (str "tool_1") (.strTR (str "ok")) false]⟩, none, false⟩).1
      = str "◆ USER (Tool Results)" ∧
    (formatUserMessage ⟨some ⟨UserContent.strC (str "hi")⟩, none, false⟩).1
      = str "◆ USER" := by
  refine ⟨rfl, ?_, ?_⟩
  · exact ((c8_user_header_tool_results_suffix ⟨UserContent.blocksC
      [.toolResultBlk (str "tool_1") (.strTR (str "ok")) false]⟩ none false rfl).1).trans
      (by decide)
  · exact ((c8_user_header_tool_results_suffix
      ⟨UserContent.strC (str "hi")⟩ none false rfl).1).trans (by decide)

/-- C9: result validation tests only key presence — it succeeds exactly
when every required key exists (whatever the values, including null), and
its outcome is identical for any two key maps with the same key list. -/
theorem c9_result_validation_presence_only (raw : JObj) :
    (validateResultMessage raw = .ok () ↔ ∀ f ∈ requiredResultFields, hasKey raw f = true) ∧
    (∀ raw' : JObj, raw.map Prod.fst = raw'.map Prod.fst →
      validateResultMessage raw = validateResultMessage raw') := by
  have hiff : missingOf raw = [] ↔ ∀ f ∈ requiredResultFields, hasKey raw f = true := by
    unfold missingOf
    rw [List.filter_eq_nil_iff]
    constructor
    · intro h f hf
      have := h f hf
      simpa using this
    · intro h f hf
      simp [h f hf]
  constructor
  · by_cases hlen : 0 < (missingOf raw).length
    · have hne : missingOf raw ≠ [] := by
        intro hh; rw [hh] at hlen; simp at hlen
      simp only [validateResultMessage, if_pos hlen]
      constructor
      · intro habs; exact absurd habs (by simp)
      · intro hall; exact absurd (hiff.mpr hall) hne
    · have heq : missingOf raw = [] := by
        rw [← List.length_eq_zero]; omega
      simp only [validateResultMessage, if_neg hlen]
      constructor
      · intro _; exact hiff.mp heq
      · intro _; trivial
  · intro raw' hkeys
    have hkgen : ∀ (o o' : JObj), o.map Prod.fst = o'.map Prod.fst →
        ∀ f, hasKey o f = hasKey o' f := by
      intro o
      induction o with
      | nil =>
        intro o' h f
        cases o' with
        | nil => rfl
        | cons b t' => simp at h
      | cons a t ih =>
        intro o' h f
        cases o' with
        | nil => simp at h
        | cons b t' =>
          simp only [List.map_cons, List.cons.injEq] at h
          unfold hasKey
          simp only [List.any_cons]
          rw [h.1]
          have hrec := ih t' h.2 f
          unfold hasKey at hrec
          rw [hrec]
    have hk : ∀ f, hasKey raw f = hasKey raw' f := hkgen raw raw' hkeys
    unfold validateResultMessage missingOf
    have hsame : (requiredResultFields.filter fun field => !hasKey raw field)
        = (requiredResultFields.filter fun field => !hasKey raw' field) := by
      apply List.filter_congr
      intro f _
      rw [hk]
    rw [hsame]

/-- C9 witness: the all-null key map validates successfully and yields the
same outcome as a well-typed map with the same keys. -/
theorem c9_result_validation_presence_only_witness :
    validateResultMessage c9raw1 = .ok () ∧
    validateResultMessage c9raw1 = validateResultMessage c9raw2 :=
  ⟨(c9_result_validation_presence_only c9raw1).1.mpr (by decide),
   (c9_result_validation_presence_only c9raw1).2 c9raw2 (by decide)⟩

/-- C10: an assistant record whose message content is a plain string
(rather than a block array) and which carries no thinking text formats to
exactly the empty string for every width and wrap-in-box flag — the text is
silently dropped. -/
theorem c10_assistant_string_content_renders_empty
    (width : Nat) (showBox : Bool) (s : Str) (thinking : Option (List TBlock))
    (h : thinkingText thinking = str "") :
    formatMessage width (.assistant ⟨some ⟨.strAC s, thinking⟩⟩) showBox = .ok (str "") := by
  simp [formatMessage, validateMessage, validateAssistantMessage, formatAssistantMessage,
    h, boxOrContent, joinSep, str, trimStr]

/-- C10 witness: a string-content assistant record with no thinking field
renders empty. -/
theorem c10_assistant_string_content_renders_empty_witness :
    thinkingText none = str "" ∧
    formatMessage 80 (.assistant ⟨some ⟨.strAC (str "Hello"), none⟩⟩) true = .ok (str "") :=
  ⟨rfl, c10_assistant_string_content_renders_empty 80 true (str "Hello") none rfl⟩
